import Mathlib

/-!
Shallow embedding of the transcript-classification engine of the
Comparative-Annotation-Toolkit sources (CAT/classify.py,
CAT/align_transcripts.py, CAT/tools/mathOps.py, CAT/tools/nameConversions.py).

Conventions of the embedding:
  * Python `None` values are represented with `Option`.
  * Python exceptions (`AssertionError`, `IndexError`, `TypeError`) are
    represented by `Except String`, the string naming the exception.
  * Python floats are represented by `Rat`; division by zero yields `0`
    rather than `nan`, which no claim depends on.
  * Helper objects whose source is not part of the given sources
    (tools.transcripts, tools.psl, tools.intervals, tools.bio, bisect)
    are modelled from the specification; each such definition carries a
    doc comment starting with "Modelled from the spec:".
-/

set_option maxHeartbeats 1000000

/-- Modelled from the spec: ChromosomeInterval is an immutable value type
holding a chromosome name, half-open start and stop positions and a strand. -/
structure ChromosomeInterval where
  chromosome : String
  start : Int
  stop : Int
  strand : String
deriving DecidableEq

/-- Modelled from the spec: a Transcript holds the stable id (name), the gene
id (name2), chromosome, strand, genomic start and stop, the ordered list of
exon intervals in ascending genomic coordinates, the thick (CDS) boundary
genomic positions, the reading-frame offset of the first codon, and the CDS
start and stop completeness flags. -/
structure Transcript where
  name : String
  name2 : String
  chromosome : String
  strand : String
  start : Int
  stop : Int
  exons : List (Int × Int)
  thick_start : Int
  thick_stop : Int
  offset : Int
  cds_start_stat : String
  cds_end_stat : String
deriving DecidableEq

/-- Modelled from the spec: mRNA length is the total length of the exons. -/
def Transcript.mrna_size (tx : Transcript) : Int :=
  (tx.exons.map (fun e => e.2 - e.1)).sum

/-- Modelled from the spec: the number of exonic bases of a transcript that
fall inside the half-open genomic window from a to b. -/
def exonic_bases_in (tx : Transcript) (a b : Int) : Int :=
  (tx.exons.map (fun e => max 0 (min e.2 b - max e.1 a))).sum

/-- Modelled from the spec: CDS length is the number of exonic bases inside
the thick boundary. -/
def Transcript.cds_size (tx : Transcript) : Int :=
  exonic_bases_in tx tx.thick_start tx.thick_stop

/-- Modelled from the spec: introns are the gaps between consecutive exons. -/
def Transcript.intron_intervals (tx : Transcript) : List (Int × Int) :=
  (tx.exons.zip tx.exons.tail).map (fun p => (p.1.2, p.2.1))

/-- Exon intervals of the transcript as ChromosomeInterval values. -/
def Transcript.exon_intervals (tx : Transcript) : List ChromosomeInterval :=
  tx.exons.map (fun e => ⟨tx.chromosome, e.1, e.2, tx.strand⟩)

/-- BED block starts: exon starts relative to the transcript start. -/
def Transcript.block_starts (tx : Transcript) : List Int :=
  tx.exons.map (fun e => e.1 - tx.start)

/-- Python list slice l[i:j] including the negative-index wrap-around
semantics: a negative bound counts from the end of the list. -/
def pySlice {α : Type} (l : List α) (i j : Int) : List α :=
  let n : Int := l.length
  let i' : Int := if i < 0 then max 0 (n + i) else min i n
  let j' : Int := if j < 0 then max 0 (n + j) else min j n
  (l.drop i'.toNat).take (j'.toNat - i'.toNat)

/-- Helper for coordinate inversion: walk the exon list and return the
genomic position that is k exonic bases into the list, or none when k is
negative or past the end. -/
def pos_in_exons : List (Int × Int) → Int → Option Int
  | [], _ => none
  | e :: rest, k =>
    if k < 0 then none
    else if k < e.2 - e.1 then some (e.1 + k)
    else pos_in_exons rest (k - (e.2 - e.1))

/-- Modelled from the spec: CoordinateSpace, genomic position to mRNA
position; none when the position lies outside the exons; on the - strand
mRNA position 0 corresponds to the highest genomic coordinate. -/
def chromosome_coordinate_to_mrna (tx : Transcript) (p : Int) : Option Int :=
  if tx.exons.any (fun e => decide (e.1 ≤ p) && decide (p < e.2)) then
    let before := (tx.exons.map (fun e => max 0 (min e.2 p - e.1))).sum
    some (if tx.strand = "-" then tx.mrna_size - 1 - before else before)
  else none

/-- Modelled from the spec: CoordinateSpace, genomic position to CDS
position; none when the position lies outside the exons or outside the thick
boundary; strand-aware like the mRNA conversion. -/
def chromosome_coordinate_to_cds (tx : Transcript) (p : Int) : Option Int :=
  if (tx.thick_start ≤ p ∧ p < tx.thick_stop) ∧
      tx.exons.any (fun e => decide (e.1 ≤ p) && decide (p < e.2)) then
    let before := exonic_bases_in tx tx.thick_start p
    some (if tx.strand = "-" then tx.cds_size - 1 - before else before)
  else none

/-- Modelled from the spec: mRNA position back to a genomic position, none
outside the range of the spliced transcript. -/
def mrna_coordinate_to_chromosome (tx : Transcript) (p : Int) : Option Int :=
  if tx.strand = "-" then pos_in_exons tx.exons (tx.mrna_size - 1 - p)
  else pos_in_exons tx.exons p

/-- The exon pieces that lie inside the thick boundary. -/
def cds_exons (tx : Transcript) : List (Int × Int) :=
  tx.exons.filterMap (fun e =>
    let s := max e.1 tx.thick_start
    let t := min e.2 tx.thick_stop
    if s < t then some (s, t) else none)

/-- Modelled from the spec: CDS position back to a genomic position, none
outside the range of the coding region. -/
def cds_coordinate_to_chromosome (tx : Transcript) (p : Int) : Option Int :=
  if tx.strand = "-" then pos_in_exons (cds_exons tx) (tx.cds_size - 1 - p)
  else pos_in_exons (cds_exons tx) p

/-- Modelled from the spec: CDS position to mRNA position, by composing the
CDS-to-genomic and genomic-to-mRNA conversions. -/
def cds_coordinate_to_mrna (tx : Transcript) (p : Int) : Option Int :=
  (cds_coordinate_to_chromosome tx p).bind (chromosome_coordinate_to_mrna tx)

/-- Modelled from the spec: one aligned block of a PSL alignment record. -/
structure PslBlock where
  size : Int
  q_start : Int
  t_start : Int
deriving DecidableEq

/-- Modelled from the spec: a PSL-like alignment record between a query
sequence (the target transcript) and a target sequence (the reference
transcript), with the aligned target-transcript sequence attached. -/
structure PslRow where
  q_size : Int
  t_size : Int
  strand : String
  blocks : List PslBlock
  match_count : Int
  mismatches : Int
  n_count : Int
  tgt_seq : String
deriving DecidableEq

def PslRow.block_sizes (p : PslRow) : List Int := p.blocks.map (·.size)

def PslRow.q_starts (p : PslRow) : List Int := p.blocks.map (·.q_start)

def PslRow.t_starts (p : PslRow) : List Int := p.blocks.map (·.t_start)

/-- Modelled from the spec: AlignmentBlockIndex, query position to target
position; none when the position falls in a gap or outside the span. -/
def PslRow.query_coordinate_to_target (p : PslRow) (q : Int) : Option Int :=
  (p.blocks.find? (fun b => decide (b.q_start ≤ q) && decide (q < b.q_start + b.size))).map
    (fun b => b.t_start + (q - b.q_start))

/-- Modelled from the spec: AlignmentBlockIndex, target position to query
position; none when the position falls in a gap or outside the span. -/
def PslRow.target_coordinate_to_query (p : PslRow) (t : Int) : Option Int :=
  (p.blocks.find? (fun b => decide (b.t_start ≤ t) && decide (t < b.t_start + b.size))).map
    (fun b => b.q_start + (t - b.t_start))

/-- Modelled from the spec: coverage is aligned bases over query length. -/
def PslRow.coverage (p : PslRow) : Rat :=
  ((p.block_sizes.sum : Int) : Rat) / (p.q_size : Rat)

/-- Modelled from the spec: identity is matches over matches plus
mismatches. -/
def PslRow.identity (p : PslRow) : Rat :=
  ((p.match_count : Rat)) / ((p.match_count + p.mismatches : Int) : Rat)

/-- Modelled from the spec: percent of query bases that are unknown. -/
def PslRow.percent_n (p : PslRow) : Rat :=
  ((p.n_count : Rat)) / ((p.q_size : Int) : Rat)

/-- Modelled from the spec: a combined penalty score over mismatches and
unaligned bases normalized by the query length; the exact formula is
immaterial to the claims, which treat the value as opaque. -/
def PslRow.badness (p : PslRow) : Rat :=
  (((p.mismatches + (p.q_size - p.block_sizes.sum) + (p.t_size - p.block_sizes.sum) : Int)) : Rat)
    / ((p.q_size : Int) : Rat)

/-!  tools/nameConversions.py  -/

/-- remove_alignment_number: strip a trailing run of digits preceded by a
hyphen, the effect of splitting on the regular expression -[0-9]+$ and
keeping the first piece. -/
def remove_alignment_number (aln_id : String) : String :=
  let rev := aln_id.data.reverse
  let digits := rev.takeWhile (fun c => c.isDigit)
  if digits ≠ [] ∧ (rev.drop digits.length).head? = some '-' then
    String.mk ((rev.drop (digits.length + 1)).reverse)
  else aln_id

/-- remove_augustus_alignment_number: strip a leading augTM-, augTMR- or
augCGP- tool tag, the effect of splitting on ^aug(TM|TMR|CGP)- and keeping
the last piece. -/
def remove_augustus_alignment_number (aln_id : String) : String :=
  match aln_id.data with
  | 'a' :: 'u' :: 'g' :: 'T' :: 'M' :: '-' :: rest => String.mk rest
  | 'a' :: 'u' :: 'g' :: 'T' :: 'M' :: 'R' :: '-' :: rest => String.mk rest
  | 'a' :: 'u' :: 'g' :: 'C' :: 'G' :: 'P' :: '-' :: rest => String.mk rest
  | _ => aln_id

/-- strip_alignment_numbers: strip both the tool tag and the run suffix. -/
def strip_alignment_numbers (aln_id : String) : String :=
  remove_alignment_number (remove_augustus_alignment_number aln_id)

/-!  tools/mathOps.py  -/

/-- Modelled from the spec: bisect.bisect_left on a sorted list returns the
leftmost insertion point, which is the length of the prefix of elements
strictly below the query.  All call sites of the sources pass sorted
lists. -/
def bisect_left (l : List Int) (q : Int) : Nat :=
  (l.takeWhile (fun x => decide (x < q))).length

/-- Shared body of mathOps.find_closest and of the local find_closest inside
calculate_num_missing_introns (classify.py); both run this code on a sorted
list, the former after sorting its argument.  Index accesses out of range
raise IndexError in the source. -/
def closest_in_sorted (sorted_numeric_list : List Int) (query_number : Int) :
    Except String Int :=
  let pos := bisect_left sorted_numeric_list query_number
  if pos = 0 then
    match sorted_numeric_list with
    | [] => Except.error "IndexError: list index out of range"
    | x :: _ => Except.ok x
  else if pos = sorted_numeric_list.length then
    match sorted_numeric_list.getLast? with
    | none => Except.error "IndexError: list index out of range"
    | some x => Except.ok x
  else
    match sorted_numeric_list[pos - 1]?, sorted_numeric_list[pos]? with
    | some before, some after =>
      if after - query_number < query_number - before then Except.ok after
      else Except.ok before
    | _, _ => Except.error "IndexError: list index out of range"

/-- mathOps.find_closest: sort the list, then locate the closest member by
bisection. -/
def find_closest (numeric_list : List Int) (query_number : Int) :
    Except String Int :=
  closest_in_sorted (numeric_list.insertionSort (· ≤ ·)) query_number

/-!  classify.py helper functions  -/

-- hard coded long transMap size (classify.py line 80)
def long_tx_size : Int := 3000000

/-- Modelled from the spec: get_bed with new start and stop positions
followed by reconstruction as a Transcript slices the transcript to the
half-open window, clipping exons and thick boundaries to it; the derived
view carries no reading-frame offset of its own. -/
def Transcript.get_bed (tx : Transcript) (new_start new_stop : Int) : Transcript :=
  { tx with
    start := new_start
    stop := new_stop
    exons := tx.exons.filterMap (fun e =>
      let s := max e.1 new_start
      let t := min e.2 new_stop
      if s < t then some (s, t) else none)
    thick_start := max tx.thick_start new_start
    thick_stop := min tx.thick_stop new_stop
    offset := 0 }

/-- convert_cds_frame: build a new Transcript view of the CDS, trimmed in
genomic coordinates by the frame offset at the 5-prime thick end and by
(cds_size - offset) mod 3 at the 3-prime end, the two swapped on the -
strand. -/
def convert_cds_frame (tx : Transcript) : Transcript :=
  let offset := tx.offset
  let mod3 := (tx.cds_size - offset) % 3
  if tx.strand = "+" then
    tx.get_bed (tx.thick_start + offset) (tx.thick_stop - mod3)
  else
    tx.get_bed (tx.thick_start + mod3) (tx.thick_stop - offset)

/-- convert_cds_frames: convert reference and target to CDS-frame views in
CDS alignment mode when they are out of frame. -/
def convert_cds_frames (ref_tx tx : Transcript) (aln_mode : String) :
    Transcript × Transcript :=
  if aln_mode = "CDS" then
    (if ref_tx.offset ≠ 0 then convert_cds_frame ref_tx else ref_tx,
     if tx.offset ≠ 0 then convert_cds_frame tx else tx)
  else (ref_tx, tx)

/-- get_intron_coordinates: convert the block starts after the first one to
mRNA or CDS coordinates, dropping the conversions that return none. -/
def get_intron_coordinates (tx : Transcript) (aln_mode : String) : List Int :=
  if aln_mode = "CDS" then
    let tx2 := convert_cds_frame tx
    (tx2.block_starts.tail.map
      (fun x => chromosome_coordinate_to_cds tx2 (tx2.start + x))).filterMap id
  else
    (tx.block_starts.tail.map
      (fun x => chromosome_coordinate_to_mrna tx (tx.start + x))).filterMap id

/-- get_exon_intervals: map each exon to its interval in mRNA coordinates of
the (possibly CDS-frame-converted) transcript, keyed by the original exon.
A conversion returning none would raise a TypeError in the source. -/
def get_exon_intervals (tx : Transcript) (aln_mode : String) :
    Except String (List (ChromosomeInterval × ChromosomeInterval)) :=
  let tx := if aln_mode = "CDS" then convert_cds_frame tx else tx
  tx.exon_intervals.mapM (fun exon => do
    let a ← match chromosome_coordinate_to_mrna tx exon.start with
      | some v => Except.ok v
      | none => Except.error "TypeError: exon start converts to None"
    let b ← match chromosome_coordinate_to_mrna tx (exon.stop - 1) with
      | some v => Except.ok v
      | none => Except.error "TypeError: exon stop converts to None"
    let p := if tx.strand = "-" then (b, a) else (a, b)
    Except.ok (exon, (⟨"", p.1, p.2 + 1, "."⟩ : ChromosomeInterval)))

/-!  classify.py alignment classifiers  -/

/-- A collections.Counter over strings: an association list from key to
count. -/
def counter_add (c : List (String × Nat)) (k : String) : List (String × Nat) :=
  match c.find? (fun p => decide (p.1 = k)) with
  | some _ => c.map (fun p => if p.1 = k then (p.1, p.2 + 1) else p)
  | none => c ++ [(k, 1)]

/-- Counter lookup: a missing key counts as zero. -/
def counter_get (c : List (String × Nat)) (k : String) : Nat :=
  ((c.find? (fun p => decide (p.1 = k))).map (·.2)).getD 0

/-- paralogy: count the occurrences of each stripped parental annotation id
over the alignment ids of the transMap PSL collection. -/
def paralogy (aln_ids : List String) : List (String × Nat) :=
  aln_ids.foldl (fun r aln_id => counter_add r (strip_alignment_numbers aln_id)) []

/-- The Paralogy value recorded by aln_classify for one alignment id: the
counter produced by paralogy is indexed with the raw alignment id
(classify.py line 150). -/
def paralogy_recorded (aln_ids : List String) (aln_id : String) : Nat :=
  counter_get (paralogy aln_ids) aln_id

/-- long_transcript: the test written in the source compares
tx.start - tx.stop against long_tx_size. -/
def long_transcript (tx : Transcript) : Bool :=
  decide (tx.start - tx.stop ≥ long_tx_size)

/-!  classify.py synteny  -/

/-- A merged genic interval carrying its gene id as data. -/
structure GeneInterval where
  chromosome : String
  start : Int
  stop : Int
  data : String
deriving DecidableEq

/-- Lexicographic comparison of character lists by code point, standing in
for the built-in string order in a form the kernel can evaluate. -/
def charListLt : List Char → List Char → Bool
  | [], [] => false
  | [], _ :: _ => true
  | _ :: _, [] => false
  | a :: as, b :: bs =>
    if a.toNat < b.toNat then true
    else if b.toNat < a.toNat then false
    else charListLt as bs

/-- Lexicographic string comparison by code point. -/
def strLt (a b : String) : Bool := charListLt a.data b.data

/-- Modelled from the spec: ChromosomeInterval values order by the tuple of
chromosome, start and stop. -/
def iv_lt_key (a : GeneInterval) (chrom : String) (s t : Int) : Bool :=
  decide (strLt a.chromosome chrom = true ∨ (a.chromosome = chrom ∧
    (a.start < s ∨ (a.start = s ∧ a.stop < t))))

def iv_le (a b : GeneInterval) : Prop :=
  strLt a.chromosome b.chromosome = true ∨ (a.chromosome = b.chromosome ∧
    (a.start < b.start ∨ (a.start = b.start ∧ a.stop ≤ b.stop)))

instance : DecidableRel iv_le := fun a b => by unfold iv_le; infer_instance

/-- bisect.bisect_left over a sorted interval list against a query interval,
by the leftmost-insertion-point contract. -/
def bisect_left_intervals (l : List GeneInterval) (chrom : String) (s t : Int) : Nat :=
  (l.takeWhile (fun x => iv_lt_key x chrom s t)).length

/-- The gene ids of a transcript list in order of first appearance, standing
in for the arbitrary but fixed dict iteration order of the source; every
consumer sorts or takes set sizes, so the choice is immaterial. -/
def gene_ids_in_order (txs : List Transcript) : List String :=
  txs.foldl (fun acc tx => if acc.contains tx.name2 then acc else acc ++ [tx.name2]) []

/-- create_interval_dict restricted to one chromosome followed by
merge_interval_dict: for each gene id, the hull of the intervals of its
transcripts whose interval length is below long_tx_size (gap_merge_intervals
with an infinite gap produces the hull), skipping merged intervals of length
at least long_tx_size. -/
def merged_gene_intervals (txs : List Transcript) (chrom : String) :
    List GeneInterval :=
  let ctxs := txs.filter (fun tx =>
    decide (tx.chromosome = chrom) && decide (tx.stop - tx.start < long_tx_size))
  (gene_ids_in_order ctxs).filterMap (fun g =>
    match (ctxs.filter (fun tx => decide (tx.name2 = g))).map (fun tx => (tx.start, tx.stop)) with
    | [] => none
    | p :: ps =>
      let s := ps.foldl (fun m q => min m q.1) p.1
      let t := ps.foldl (fun m q => max m q.2) p.2
      if long_tx_size ≤ t - s then none else some ⟨chrom, s, t, g⟩)

/-- sort_interval_dict restricted to one chromosome: the merged genic
intervals in sorted order. -/
def sorted_gene_intervals (txs : List Transcript) (chrom : String) :
    List GeneInterval :=
  (merged_gene_intervals txs chrom).insertionSort iv_le

/-- make_ref_interval_map: look a gene id up among the merged reference
intervals of every chromosome; a missing key raises KeyError in the
source. -/
def ref_interval_lookup (ref_txs : List Transcript) (gene : String) :
    Option GeneInterval :=
  (((ref_txs.map (·.chromosome)).eraseDups).flatMap
    (fun chrom => sorted_gene_intervals ref_txs chrom)).find?
    (fun iv => decide (iv.data = gene))

/-- synteny, for one target transcript: bisect into the sorted target-genome
gene intervals of its chromosome, slice from position minus 5 to position
plus 5 with Python slice semantics, gather the gene ids, do the same in the
reference genome around the parent gene, and return the size of the
intersection of the two gene-id sets. -/
def synteny_score (ref_txs tgt_txs : List Transcript) (tx : Transcript) :
    Option Nat := do
  let target_intervals := sorted_gene_intervals tgt_txs tx.chromosome
  let target_position := bisect_left_intervals target_intervals tx.chromosome tx.start tx.stop
  let target_genes := (pySlice target_intervals ((target_position : Int) - 5)
    ((target_position : Int) + 5)).map (·.data)
  let ref_interval ← ref_interval_lookup ref_txs tx.name2
  let ref_intervals := sorted_gene_intervals ref_txs ref_interval.chromosome
  let ref_position := bisect_left_intervals ref_intervals ref_interval.chromosome
    ref_interval.start ref_interval.stop
  let reference_genes := (pySlice ref_intervals ((ref_position : Int) - 5)
    ((ref_position : Int) + 5)).map (·.data)
  pure ((reference_genes.eraseDups.filter (fun g => target_genes.contains g)).length)

/-!  classify.py metrics classifiers  -/

/-- calculate_num_missing_introns: convert reference and target introns to
alignment coordinates, map target introns through the alignment, and count
the reference introns with no target intron within the wiggle distance.
The inner find_closest of the source is closest_in_sorted; an IndexError
inside the loop propagates. -/
def calculate_num_missing_introns (ref_tx tx : Transcript) (psl : PslRow)
    (aln_mode : String) (wiggle_distance : Int) : Except String Int :=
  if tx.intron_intervals.length = 0 then Except.ok 0
  else
    let ref_introns := (get_intron_coordinates ref_tx aln_mode).insertionSort (· ≤ ·)
    let tgt_introns := (((get_intron_coordinates tx aln_mode).filterMap
      (fun intron => psl.query_coordinate_to_target intron)).insertionSort (· ≤ ·))
    ref_introns.foldlM (fun num_missing ref_intron => do
      let closest ← closest_in_sorted tgt_introns ref_intron
      if ¬ (closest - wiggle_distance < ref_intron ∧ ref_intron < closest + wiggle_distance)
      then pure (num_missing + 1) else pure num_missing) (0 : Int)

/-- The number of integer positions i with a at most i below b for which the
target-to-query lookup of the alignment returns none. -/
def count_unmapped (psl : PslRow) (a b : Int) : Nat :=
  ((List.range (b - a).toNat).map (fun k => a + (k : Int))).countP
    (fun i => (psl.target_coordinate_to_query i).isNone)

/-- The comparison format_ratio(num, den) at least 0.8 of the source; a zero
denominator gives nan in the source, which compares false. -/
def ratio_ge_cutoff (num : Nat) (den : Int) : Bool :=
  decide (0 < den ∧ (4 : Rat) / 5 ≤ ((num : Int) : Rat) / (den : Rat))

/-- calculate_num_missing_exons: count the reference exons whose converted
span is at least 80 percent unmapped under target-to-query lookup. -/
def calculate_num_missing_exons (ref_tx : Transcript) (psl : PslRow)
    (aln_mode : String) : Except String Int := do
  let ref_exons ← get_exon_intervals ref_tx aln_mode
  pure ((ref_exons.countP (fun pr =>
    let exon := pr.2
    ratio_ge_cutoff (count_unmapped psl exon.start exon.stop) (exon.stop - exon.start)) : Int))

/-!  classify.py alignment evaluation classifiers  -/

/-- exon_gain: the target exons whose converted span is at least 80 percent
unmapped under target-to-query lookup; the gained exons are reported as the
original genomic exon intervals. -/
def exon_gain (tx : Transcript) (psl : PslRow) (aln_mode : String) :
    Except String (List ChromosomeInterval) := do
  let tgt_exons ← get_exon_intervals tx aln_mode
  pure ((tgt_exons.filter (fun pr =>
    let converted_exon := pr.2
    ratio_ge_cutoff (count_unmapped psl converted_exon.start converted_exon.stop)
      (converted_exon.stop - converted_exon.start))).map (·.1))

/-- Modelled from the spec: read the sequence three bases at a time from
position 0, yielding each complete codon with its start position. -/
def read_codons_with_position (s : List Char) : List (Nat × List Char) :=
  (List.range (s.length / 3)).map (fun k => (3 * k, (s.drop (3 * k)).take 3))

/-- Modelled from the spec: a codon translates to a stop exactly for TAA,
TAG and TGA. -/
def is_stop_codon (c : List Char) : Bool :=
  decide (c = ['T', 'A', 'A'] ∨ c = ['T', 'A', 'G'] ∨ c = ['T', 'G', 'A'])

/-- in_frame_stop: in mRNA mode slice the aligned target sequence from the
mRNA position of CDS base 0 to the mRNA position of the last CDS base
(exclusive), otherwise take it whole; scan codons from position 0 and return
the genomic interval of the first stop, swapping the endpoints on the -
strand.  A slice bound of None raises a TypeError in the source, and an
interval endpoint of None fails the integer conversion of
ChromosomeInterval. -/
def in_frame_stop (tx : Transcript) (psl : PslRow) (aln_mode : String) :
    Except String (Option ChromosomeInterval) := do
  let tgt_seq ←
    if aln_mode = "mRNA" then
      match cds_coordinate_to_mrna tx 0, cds_coordinate_to_mrna tx (tx.cds_size - 1) with
      | some cds_start, some cds_stop =>
        Except.ok (pySlice psl.tgt_seq.data cds_start cds_stop)
      | _, _ => Except.error "TypeError: slice index is None"
    else Except.ok psl.tgt_seq.data
  match (read_codons_with_position tgt_seq).find? (fun pc => is_stop_codon pc.2) with
  | none => pure none
  | some pc => do
    let a := cds_coordinate_to_chromosome tx (pc.1 : Int)
    let b := cds_coordinate_to_chromosome tx ((pc.1 : Int) + 3)
    let p := if tx.strand = "-" then (b, a) else (a, b)
    match p.1, p.2 with
    | some u, some v => pure (some ⟨tx.chromosome, u, v, tx.strand⟩)
    | _, _ => Except.error "TypeError: interval endpoint is None"

/-- interval_is_coding: the interval lies inside the thick boundary. -/
def interval_is_coding (tx : Transcript) (i : ChromosomeInterval) : Bool :=
  decide (tx.thick_start ≤ i.start ∧ i.stop ≤ tx.thick_stop)

/-- convert_coordinates_to_chromosome: translate the two alignment positions
to chromosome positions, asserting that neither is None, swap on the -
strand, and assert the result is ordered. -/
def convert_coordinates_to_chromosome (left_pos right_pos : Int)
    (coordinate_fn : Int → Option Int) (strand : String) :
    Except String (Int × Int) := do
  let left_chrom_pos ← match coordinate_fn left_pos with
    | some v => Except.ok v
    | none => Except.error "AssertionError: left_chrom_pos is not None"
  let right_chrom_pos ← match coordinate_fn right_pos with
    | some v => Except.ok v
    | none => Except.error "AssertionError: right_chrom_pos is not None"
  let p := if strand = "-" then (right_chrom_pos, left_chrom_pos)
    else (left_chrom_pos, right_chrom_pos)
  if p.1 ≤ p.2 then Except.ok p
  else Except.error "AssertionError: right_chrom_pos >= left_chrom_pos"

/-- parse_indel: convert a gap to an output interval and classify it.  The
None re-check of the source after convert_coordinates_to_chromosome is
unreachable, because the asserts inside that call have already fired; the
embedding therefore omits the dead branch that would return an empty
list. -/
def parse_indel (left_pos right_pos : Int) (coordinate_fn : Int → Option Int)
    (tx : Transcript) (gap_type : String) :
    Except String (List (String × ChromosomeInterval)) := do
  let p ← convert_coordinates_to_chromosome left_pos right_pos coordinate_fn tx.strand
  let i : ChromosomeInterval := ⟨tx.chromosome, p.1, p.2, tx.strand⟩
  let this_type :=
    if interval_is_coding tx i then
      if (i.stop - i.start) % 3 = 0 then "CodingMult3" else "Coding"
    else "NonCoding"
  pure [(this_type ++ gap_type, i)]

/-- The loop body of find_indels over the zipped triples of block size,
next query start and next target start, carrying the previous query and
target positions. -/
def find_indels_go (tx : Transcript) (coordinate_fn : Int → Option Int)
    (q_pos t_pos : Int) :
    List (Int × Int × Int) → Except String (List (String × ChromosomeInterval))
  | [] => pure []
  | (block_size, q_start, t_start) :: rest => do
    let q_offset := q_start - block_size - q_pos
    let t_offset := t_start - block_size - t_pos
    if q_offset = 0 ∧ t_offset = 0 then
      Except.error "AssertionError: not (q_offset == t_offset == 0)"
    else do
      let ins ← if q_offset ≠ 0 then
          parse_indel (q_start - q_offset) q_start coordinate_fn tx "Insertion"
        else pure []
      let del ← if t_offset ≠ 0 then
          parse_indel q_start q_start coordinate_fn tx "Deletion"
        else pure []
      let rest_r ← find_indels_go tx coordinate_fn q_start t_start rest
      pure (ins ++ del ++ rest_r)

/-- find_indels: walk adjacent block pairs of the alignment and report the
classified gaps in chromosome coordinates. -/
def find_indels (tx : Transcript) (psl : PslRow) (aln_mode : String) :
    Except String (List (String × ChromosomeInterval)) :=
  let coordinate_fn := if aln_mode = "CDS" then cds_coordinate_to_chromosome tx
    else mrna_coordinate_to_chromosome tx
  find_indels_go tx coordinate_fn 0 0
    (psl.block_sizes.zip (psl.q_starts.tail.zip psl.t_starts.tail))

/-!  classify.py chunked classification and merge  -/

/-- One work item of metrics_evaluation_classify: the tuple yielded by
tx_iter. -/
structure TxTuple where
  ref_tx : Transcript
  tx : Transcript
  psl : PslRow
  biotype : String
  aln_mode : String
deriving DecidableEq

/-- A classification value: a string, a float metric or an integer count. -/
inductive CVal where
  | s (v : String)
  | q (v : Rat)
  | n (v : Int)
deriving DecidableEq

/-- A metrics table row: TranscriptId, classifier, value. -/
structure MRow where
  txId : String
  classifier : String
  value : CVal
deriving DecidableEq

/-- An evaluation table row: TranscriptId, classifier, chromosome, start,
stop, strand. -/
structure ERow where
  txId : String
  classifier : String
  chromosome : String
  start : Int
  stop : Int
  strand : String
deriving DecidableEq

/-- The rows appended by calculate_metrics for one input tuple, in source
order; the NumMissinglExons spelling reproduces the source. -/
def metric_rows (t : TxTuple) : Except String (List MRow) := do
  let head : List MRow :=
    if t.biotype = "protein_coding" then
      [⟨t.tx.name, "CdsStartStat", CVal.s t.tx.cds_start_stat⟩,
       ⟨t.tx.name, "CdsEndStat", CVal.s t.tx.cds_end_stat⟩]
    else []
  let num_missing_introns ← calculate_num_missing_introns t.ref_tx t.tx t.psl t.aln_mode 7
  let num_missing_exons ← calculate_num_missing_exons t.ref_tx t.psl t.aln_mode
  pure (head ++
    [⟨t.tx.name, "AlnCoverage", CVal.q t.psl.coverage⟩,
     ⟨t.tx.name, "AlnIdentity", CVal.q t.psl.identity⟩,
     ⟨t.tx.name, "Badness", CVal.q t.psl.badness⟩,
     ⟨t.tx.name, "PercentUnknownBases", CVal.q t.psl.percent_n⟩,
     ⟨t.tx.name, "NumMissingIntrons", CVal.n num_missing_introns⟩,
     ⟨t.tx.name, "NumMissinglExons", CVal.n num_missing_exons⟩])

/-- The rows appended by calculate_evaluations for one input tuple, in
source order, already flattened to the column representation. -/
def eval_rows (t : TxTuple) : Except String (List ERow) := do
  let gained ← exon_gain t.tx t.psl t.aln_mode
  let r1 := gained.map (fun exon => ((t.tx.name, "ExonGain", exon) : String × String × ChromosomeInterval))
  let indels ← find_indels t.tx t.psl t.aln_mode
  let r2 := indels.map (fun ci => ((t.tx.name, ci.1, ci.2) : String × String × ChromosomeInterval))
  let r3 ← if t.biotype = "protein_coding" ∧ t.tx.cds_size > 50 then do
      let ifs ← in_frame_stop t.tx t.psl t.aln_mode
      match ifs with
      | some i => pure [((t.tx.name, "InFrameStop", i) : String × String × ChromosomeInterval)]
      | none => pure ([] : List (String × String × ChromosomeInterval))
    else pure ([] : List (String × String × ChromosomeInterval))
  pure ((r1 ++ r2 ++ r3).map (fun rec =>
    (⟨rec.1, rec.2.1, rec.2.2.chromosome, rec.2.2.start, rec.2.2.stop, rec.2.2.strand⟩ : ERow)))

/-- The per-chunk loop shared by calculate_metrics and
calculate_evaluations: concatenate the per-tuple record lists in order,
propagating any exception. -/
def run_chunk {β : Type} (f : TxTuple → Except String (List β)) :
    List TxTuple → Except String (List β)
  | [] => Except.ok []
  | t :: rest =>
    match f t with
    | Except.error e => Except.error e
    | Except.ok v =>
      match run_chunk f rest with
      | Except.error e => Except.error e
      | Except.ok r => Except.ok (v ++ r)

/-- calculate_metrics over one transcript chunk. -/
def calculate_metrics (chunk : List TxTuple) : Except String (List MRow) :=
  run_chunk metric_rows chunk

/-- calculate_evaluations over one transcript chunk. -/
def calculate_evaluations (chunk : List TxTuple) : Except String (List ERow) :=
  run_chunk eval_rows chunk

/-- merge_results: flatten the per-chunk record lists and sort by all
columns; the sort relation is passed in as the embedding of the column
tuple ordering, and the sorted list is the final table (set_index marks the
TranscriptId and classifier columns without reordering). -/
def merge_results {α : Type} (sort_rel : α → α → Prop) [DecidableRel sort_rel]
    (r : List (List α)) : List α :=
  r.flatten.insertionSort sort_rel

/-- Injection of a classification value into a lexicographically ordered
tuple, to give the metric rows a total column order. -/
def cval_key : CVal → ℕ ×ₗ (String ×ₗ (Rat ×ₗ Int))
  | CVal.s v => toLex (0, toLex (v, toLex ((0 : Rat), (0 : Int))))
  | CVal.q v => toLex (1, toLex ("", toLex (v, (0 : Int))))
  | CVal.n v => toLex (2, toLex ("", toLex ((0 : Rat), v)))

/-- The full column tuple of a metric row, lexicographically ordered. -/
def mrow_key (r : MRow) : String ×ₗ (String ×ₗ (ℕ ×ₗ (String ×ₗ (Rat ×ₗ Int)))) :=
  toLex (r.txId, toLex (r.classifier, cval_key r.value))

/-- Sorting by all columns of the metrics table. -/
def mrow_le (a b : MRow) : Prop := mrow_key a ≤ mrow_key b

instance : DecidableRel mrow_le := fun a b =>
  inferInstanceAs (Decidable (mrow_key a ≤ mrow_key b))

/-- The full column tuple of an evaluation row, lexicographically ordered. -/
def erow_key (r : ERow) : String ×ₗ (String ×ₗ (String ×ₗ (Int ×ₗ (Int ×ₗ String)))) :=
  toLex (r.txId, toLex (r.classifier, toLex (r.chromosome, toLex (r.start, toLex (r.stop, r.strand)))))

/-- Sorting by all columns of the evaluation table. -/
def erow_le (a b : ERow) : Prop := erow_key a ≤ erow_key b

instance : DecidableRel erow_le := fun a b =>
  inferInstanceAs (Decidable (erow_key a ≤ erow_key b))

/-!  align_transcripts.py  -/

/-- One sequence pair yielded to group_transcripts. -/
structure SeqItem where
  tx_id : String
  tx_seq : String
  ref_tx_id : String
  ref_tx_seq : String
deriving DecidableEq

/-- The accumulation loop of group_transcripts after the first item has
seeded the bin. -/
def group_transcripts_go (num_bases max_seqs : Nat) (this_bin : List SeqItem)
    (bin_base_count num_seqs : Nat) : List SeqItem → List (List SeqItem)
  | [] => [this_bin]
  | item :: rest =>
    let c := bin_base_count + item.tx_seq.length
    let n := num_seqs + 1
    if num_bases ≤ c ∨ max_seqs ≤ n then
      this_bin :: group_transcripts_go num_bases max_seqs [item] item.tx_seq.length 1 rest
    else
      group_transcripts_go num_bases max_seqs (this_bin ++ [item]) c n rest

/-- group_transcripts: greedy bin packing of sequence pairs; a bin is
yielded when the cumulative base count or the pair count reaches its bound,
and the item that tipped the bin starts the next bin.  An empty iterator
ends the generator with no bins. -/
def group_transcripts (tx_iter : List SeqItem) (num_bases max_seqs : Nat) :
    List (List SeqItem) :=
  match tx_iter with
  | [] => []
  | first :: rest =>
    group_transcripts_go num_bases max_seqs [first] first.tx_seq.length 1 rest

/-!  Concrete inputs used by the claim theorems  -/

/-- Builder for example transcripts on chromosome chr1. -/
def mkTx (name name2 strand : String) (start stop : Int)
    (exons : List (Int × Int)) (thick_start thick_stop offset : Int) : Transcript :=
  ⟨name, name2, "chr1", strand, start, stop, exons, thick_start, thick_stop,
   offset, "none", "none"⟩

/-- The 5-prime genomic trim width applied by convert_cds_frame. -/
def frame_trim_low (tx : Transcript) : Int :=
  if tx.strand = "+" then tx.offset else (tx.cds_size - tx.offset) % 3

/-- The 3-prime genomic trim width applied by convert_cds_frame. -/
def frame_trim_high (tx : Transcript) : Int :=
  if tx.strand = "+" then (tx.cds_size - tx.offset) % 3 else tx.offset

/-- C1 counterexample transcript: the CDS piece of the first exon is a
single base while the frame offset is 2, so the genomic trim crosses into
the intron. -/
def c1_ctx : Transcript := mkTx "c1" "g1" "+" 0 20 [(0, 3), (10, 20)] 2 14 2

/-- C1 witness transcript: one coding exon, offset 1. -/
def c1_wtx : Transcript := mkTx "c1w" "g1" "+" 0 100 [(0, 100)] 10 30 1

/-- C3 and C10 reference transcript: two exons, one intron, noncoding. -/
def c10_ref : Transcript := mkTx "ref" "g" "+" 0 15 [(0, 5), (10, 15)] 0 0 0

/-- C10 target transcript: two exons, one intron, noncoding. -/
def c10_tx : Transcript := mkTx "tgt" "g" "+" 0 15 [(0, 5), (10, 15)] 0 0 0

/-- C10 alignment: one block of 3 bases, so the single target intron
coordinate 5 falls in a gap and maps to none. -/
def c10_psl : PslRow := ⟨5, 5, "+", [⟨3, 0, 0⟩], 3, 0, 0, "AAAAA"⟩

/-- C3 counterexample transcript: a single exon, hence no introns. -/
def c3_tx : Transcript := mkTx "c3" "g" "+" 0 5 [(0, 5)] 0 0 0

/-- C4 scenario: seven single-transcript genes A to G in identical order on
one chromosome. -/
def c4_txs : List Transcript :=
  [mkTx "tx_A" "A" "+" 0 50 [(0, 50)] 0 0 0,
   mkTx "tx_B" "B" "+" 100 150 [(100, 150)] 100 100 0,
   mkTx "tx_C" "C" "+" 200 250 [(200, 250)] 200 200 0,
   mkTx "tx_D" "D" "+" 300 350 [(300, 350)] 300 300 0,
   mkTx "tx_E" "E" "+" 400 450 [(400, 450)] 400 400 0,
   mkTx "tx_F" "F" "+" 500 550 [(500, 550)] 500 500 0,
   mkTx "tx_G" "G" "+" 600 650 [(600, 650)] 600 600 0]

/-- C4: the transcript of gene D. -/
def c4_txD : Transcript := mkTx "tx_D" "D" "+" 300 350 [(300, 350)] 300 300 0

/-- C5 failing input: two transMap alignment ids of the same reference
transcript. -/
def c5_ids : List String := ["ENSMUST00000169901.2-1", "ENSMUST00000169901.2-2"]

/-- C6 transcript: a 10-base single-exon CDS. -/
def c6_tx : Transcript := mkTx "c6" "g" "+" 100 110 [(100, 110)] 100 110 0

/-- C6 failing alignment: the second block starts at query position 20,
past the CDS, so the right endpoint of the query gap maps to none in CDS
mode. -/
def c6_psl : PslRow := ⟨23, 6, "+", [⟨3, 0, 0⟩, ⟨3, 20, 3⟩], 6, 0, 0, ""⟩

/-- C7 transcript: a 9-base single-exon CDS. -/
def c7_tx : Transcript := mkTx "c7" "g" "+" 100 109 [(100, 109)] 100 109 0

/-- C7 alignment whose target sequence is the CDS ATG AAA TAA. -/
def c7_psl : PslRow := ⟨9, 9, "+", [⟨9, 0, 0⟩], 9, 0, 0, "ATGAAATAA"⟩

/-- C7 alignment whose target sequence is the CDS ATG TGA AAA, with the
stop in the second codon. -/
def c7_psl2 : PslRow := ⟨9, 9, "+", [⟨9, 0, 0⟩], 9, 0, 0, "ATGTGAAAA"⟩

/-- C8: a 600000-base sequence. -/
def c8_big : String := String.mk (List.replicate 600000 'A')

/-- C8: a 1-base sequence. -/
def c8_small : String := String.mk ['A']

def c8_item1 : SeqItem := ⟨"tx1", c8_big, "r1", ""⟩

def c8_item2 : SeqItem := ⟨"tx2", c8_big, "r2", ""⟩

def c8_item3 : SeqItem := ⟨"tx3", c8_small, "r3", ""⟩

/-- C9 failing input: a transcript spanning 4,000,000 genomic bases. -/
def c9_tx : Transcript := mkTx "c9" "g" "+" 0 4000000 [(0, 4000000)] 0 0 0

/-- C2 witness transcript. -/
def c2_tx : Transcript := mkTx "c2" "g" "+" 0 5 [(0, 5)] 0 0 0

/-- C2 witness alignment: a perfect 5-base self alignment. -/
def c2_psl : PslRow := ⟨5, 5, "+", [⟨5, 0, 0⟩], 5, 0, 0, "AAAAA"⟩

/-- C2 witness work item. -/
def c2_tuple : TxTuple := ⟨c2_tx, c2_tx, c2_psl, "noncoding", "mRNA"⟩

/-- The metric rows produced for the C2 witness work item. -/
def c2_mrows : List MRow :=
  [⟨"c2", "AlnCoverage", CVal.q 1⟩, ⟨"c2", "AlnIdentity", CVal.q 1⟩,
   ⟨"c2", "Badness", CVal.q 0⟩, ⟨"c2", "PercentUnknownBases", CVal.q 0⟩,
   ⟨"c2", "NumMissingIntrons", CVal.n 0⟩, ⟨"c2", "NumMissinglExons", CVal.n 0⟩]

/-- The record list of a successful per-tuple classifier run, defaulting to
the empty list; used to state what the chunked runs produce. -/
def rows_of {β : Type} (f : TxTuple → Except String (List β)) (t : TxTuple) :
    List β :=
  ((f t).toOption).getD []

/-!  Supporting lemmas  -/

theorem exonic_split (tx : Transcript) (a b c : Int) (h1 : a ≤ b) (h2 : b ≤ c) :
    exonic_bases_in tx a c = exonic_bases_in tx a b + exonic_bases_in tx b c := by
  unfold exonic_bases_in
  induction tx.exons with
  | nil => simp
  | cons e t ih =>
    simp only [List.map_cons, List.sum_cons]
    omega

theorem exonic_get_bed (tx : Transcript) (A B : Int) :
    exonic_bases_in (tx.get_bed A B) A B = exonic_bases_in tx A B := by
  unfold exonic_bases_in Transcript.get_bed
  simp only
  induction tx.exons with
  | nil => rfl
  | cons e t ih =>
    simp only [List.filterMap_cons]
    by_cases h : max e.1 A < min e.2 B
    · simp only [if_pos h, List.map_cons, List.sum_cons, ih]
      omega
    · simp only [if_neg h, List.map_cons, List.sum_cons, ih]
      omega

/-!  Claim C1  -/

/-- C1 counterexample: a transcript with nonzero reading-frame offset whose
CDS-frame view has a CDS length that is not a multiple of 3, because the
genomic trim of the thick start crosses from the first coding exon into the
intron. -/
theorem c1_counterexample :
    c1_ctx.offset ≠ 0 ∧ (convert_cds_frame c1_ctx).cds_size % 3 ≠ 0 := by decide

/-- C1 (amended): convert_cds_frame moves the 5-prime genomic thick
boundary inward by offset and the 3-prime genomic thick boundary inward by
(cds_size - offset) mod 3, swapping the two widths on the - strand; when
each trimmed genomic strip lies entirely inside exons, the view loses
exactly those trim widths of CDS bases and its CDS length is
cds_size - offset - (cds_size - offset) mod 3, an exact multiple of 3. -/
theorem c1_amended (tx : Transcript) (hoff : tx.offset ≠ 0) (hlo0 : 0 ≤ tx.offset)
    (hlo : exonic_bases_in tx tx.thick_start (tx.thick_start + frame_trim_low tx)
      = frame_trim_low tx)
    (hhi : exonic_bases_in tx (tx.thick_stop - frame_trim_high tx) tx.thick_stop
      = frame_trim_high tx)
    (hw : tx.thick_start + frame_trim_low tx ≤ tx.thick_stop - frame_trim_high tx) :
    (convert_cds_frame tx).thick_start = tx.thick_start + frame_trim_low tx ∧
    (convert_cds_frame tx).thick_stop = tx.thick_stop - frame_trim_high tx ∧
    (convert_cds_frame tx).cds_size
      = tx.cds_size - tx.offset - (tx.cds_size - tx.offset) % 3 ∧
    (convert_cds_frame tx).cds_size % 3 = 0 := by
  have hm3 : 0 ≤ (tx.cds_size - tx.offset) % 3 := Int.emod_nonneg _ (by norm_num)
  have hlo0' : 0 ≤ frame_trim_low tx := by
    unfold frame_trim_low; split <;> omega
  have hhi0' : 0 ≤ frame_trim_high tx := by
    unfold frame_trim_high; split <;> omega
  have hsum : frame_trim_low tx + frame_trim_high tx
      = tx.offset + (tx.cds_size - tx.offset) % 3 := by
    unfold frame_trim_low frame_trim_high; split <;> omega
  set A := tx.thick_start + frame_trim_low tx with hA
  set B := tx.thick_stop - frame_trim_high tx with hB
  have hview : convert_cds_frame tx = tx.get_bed A B := by
    unfold convert_cds_frame frame_trim_low frame_trim_high at *
    split
    · rename_i h
      simp only [h, if_pos] at hA hB ⊢
      rw [hA, hB]
    · rename_i h
      simp only [h, if_neg, if_false] at hA hB ⊢
      rw [hA, hB]
  have hts : (tx.get_bed A B).thick_start = A := by
    unfold Transcript.get_bed; simp only; omega
  have hto : (tx.get_bed A B).thick_stop = B := by
    unfold Transcript.get_bed; simp only; omega
  have hcds : (tx.get_bed A B).cds_size = exonic_bases_in tx A B := by
    unfold Transcript.cds_size
    rw [hts, hto]
    exact exonic_get_bed tx A B
  have hsplit1 : exonic_bases_in tx tx.thick_start tx.thick_stop
      = exonic_bases_in tx tx.thick_start A + exonic_bases_in tx A tx.thick_stop :=
    exonic_split tx _ _ _ (by omega) (by omega)
  have hsplit2 : exonic_bases_in tx A tx.thick_stop
      = exonic_bases_in tx A B + exonic_bases_in tx B tx.thick_stop :=
    exonic_split tx _ _ _ (by omega) (by omega)
  have hmid : exonic_bases_in tx A B
      = tx.cds_size - tx.offset - (tx.cds_size - tx.offset) % 3 := by
    have := tx.cds_size
    unfold Transcript.cds_size at *
    omega
  refine ⟨by rw [hview, hts], by rw [hview, hto], by rw [hview, hcds, hmid], ?_⟩
  rw [hview, hcds, hmid]
  omega

/-- C1 witness: the amended theorem applied to a transcript with one coding
exon and offset 1. -/
theorem c1_witness :
    (convert_cds_frame c1_wtx).thick_start = c1_wtx.thick_start + frame_trim_low c1_wtx ∧
    (convert_cds_frame c1_wtx).thick_stop = c1_wtx.thick_stop - frame_trim_high c1_wtx ∧
    (convert_cds_frame c1_wtx).cds_size
      = c1_wtx.cds_size - c1_wtx.offset - (c1_wtx.cds_size - c1_wtx.offset) % 3 ∧
    (convert_cds_frame c1_wtx).cds_size % 3 = 0 :=
  c1_amended c1_wtx (by decide) (by decide) (by decide) (by decide) (by decide)

/-!  Claim C3  -/

/-- C3 counterexample: for a concrete single-exon transcript the
missing-introns classifier returns the integer 0; the source function
always returns an integer, never a not-applicable marker. -/
theorem c3_counterexample :
    c3_tx.intron_intervals = [] ∧
    calculate_num_missing_introns c10_ref c3_tx c10_psl "mRNA" 7 = Except.ok 0 :=
  ⟨rfl, rfl⟩

/-- C3 (amended): for every transcript with no introns,
calculate_num_missing_introns returns the integer 0 and does not error. -/
theorem c3_amended (ref_tx tx : Transcript) (psl : PslRow) (aln_mode : String)
    (wiggle : Int) (h : tx.intron_intervals = []) :
    calculate_num_missing_introns ref_tx tx psl aln_mode wiggle = Except.ok 0 := by
  unfold calculate_num_missing_introns
  simp [h]

/-- C3 witness: the amended theorem applied to the concrete single-exon
transcript. -/
theorem c3_witness :
    calculate_num_missing_introns c10_ref c3_tx c10_psl "CDS" 7 = Except.ok 0 :=
  c3_amended c10_ref c3_tx c10_psl "CDS" 7 (by rfl)

/-!  Claim C4  -/

/-- C4 counterexample: in the scenario of two identical genomes with genes
A to G in order, the transcript of gene D receives synteny score 2, not
6. -/
theorem c4_counterexample :
    synteny_score c4_txs c4_txs c4_txD = some 2 ∧ (2 : Nat) ≠ 6 := by
  refine ⟨by decide, by decide⟩

/-- C4 (amended): the neighborhood is target_intervals[pos - 5 : pos + 5]
under Python slice semantics, so it holds the gene itself, up to five
predecessors and up to four successors when pos is at least 5, while for
pos below 5 the negative start index wraps to the end of the list; in the
seven-gene scenario the scores of the transcripts of genes A to G are
3, 3, 3, 2, 1, 7 and 6. -/
theorem c4_amended :
    c4_txs.map (fun tx => synteny_score c4_txs c4_txs tx) =
      [some 3, some 3, some 3, some 2, some 1, some 7, some 6] := by decide

/-!  Claim C5  -/

/-- C5: the Paralogy value recorded for the transMap alignment id
ENSMUST00000169901.2-1 is 0, because aln_classify indexes the counter keyed
by stripped ids with the raw alignment id; two alignment ids of the
collection reduce to the same reference transcript id, so the claimed value
is 2. -/
theorem c5_code_bug :
    paralogy_recorded c5_ids "ENSMUST00000169901.2-1" = 0 ∧
    (c5_ids.filter (fun a =>
      strip_alignment_numbers a = strip_alignment_numbers "ENSMUST00000169901.2-1")).length
      = 2 :=
  ⟨rfl, rfl⟩

/-!  Claim C6  -/

/-- C6: a CDS-mode block gap whose right endpoint (query position 20, past
the 10-base CDS) maps to none is not silently dropped: the assertion inside
convert_coordinates_to_chromosome fires first and find_indels aborts with
an AssertionError instead of completing. -/
theorem c6_code_bug :
    cds_coordinate_to_chromosome c6_tx 20 = none ∧
    find_indels c6_tx c6_psl "CDS" =
      Except.error "AssertionError: right_chrom_pos is not None" :=
  ⟨rfl, rfl⟩

/-!  Claim C7  -/

/-- C7 counterexample: for the CDS sequence ATG AAA TAA the source does not
return the genomic interval of the third codon in either alignment mode. -/
theorem c7_counterexample :
    in_frame_stop c7_tx c7_psl "CDS"
      ≠ Except.ok (some ⟨"chr1", 106, 109, "+"⟩) ∧
    in_frame_stop c7_tx c7_psl "mRNA"
      ≠ Except.ok (some ⟨"chr1", 106, 109, "+"⟩) := by
  constructor
  · rw [show in_frame_stop c7_tx c7_psl "CDS"
      = Except.error "TypeError: interval endpoint is None" from rfl]
    simp
  · rw [show in_frame_stop c7_tx c7_psl "mRNA" = Except.ok none from rfl]
    simp

/-- C7 (amended): only complete codons of the scanned sequence are read; in
mRNA mode the scanned slice stops one base short of the CDS end, so a stop
confined to the final codon is never seen and the scan of ATG AAA TAA
returns none; in CDS mode a stop in the final codon maps its end coordinate
to none and the interval construction fails; a stop strictly before the
final codon, as in ATG TGA AAA, is returned as the genomic interval of that
codon. -/
theorem c7_amended :
    in_frame_stop c7_tx c7_psl "mRNA" = Except.ok none ∧
    in_frame_stop c7_tx c7_psl "CDS" =
      Except.error "TypeError: interval endpoint is None" ∧
    in_frame_stop c7_tx c7_psl2 "CDS" =
      Except.ok (some ⟨"chr1", 103, 106, "+"⟩) :=
  ⟨rfl, rfl, rfl⟩

/-!  Claim C9  -/

/-- C9: long_transcript compares tx.start - tx.stop with the threshold, so
a transcript spanning 4,000,000 bases is reported false although its
genomic span exceeds long_tx_size. -/
theorem c9_code_bug :
    long_transcript c9_tx = false ∧ c9_tx.stop - c9_tx.start ≥ long_tx_size := by
  refine ⟨rfl, by decide⟩

/-!  Claim C8  -/

theorem group_transcripts_three (i1 i2 i3 : SeqItem) (nb ms : Nat)
    (h12 : nb ≤ i1.tx_seq.length + i2.tx_seq.length ∨ ms ≤ 2)
    (h23 : ¬ (nb ≤ i2.tx_seq.length + i3.tx_seq.length ∨ ms ≤ 2)) :
    group_transcripts [i1, i2, i3] nb ms = [[i1], [i2, i3]] := by
  unfold group_transcripts group_transcripts_go
  rw [if_pos (by omega : nb ≤ i1.tx_seq.length + i2.tx_seq.length ∨ ms ≤ 1 + 1)]
  unfold group_transcripts_go
  rw [if_neg (by omega : ¬ (nb ≤ i2.tx_seq.length + i3.tx_seq.length ∨ ms ≤ 1 + 1))]
  rfl

theorem c8_len1 : c8_item1.tx_seq.length = 600000 := by
  rw [show c8_item1.tx_seq.length = (List.replicate 600000 'A').length from rfl,
    List.length_replicate]

theorem c8_len2 : c8_item2.tx_seq.length = 600000 := by
  rw [show c8_item2.tx_seq.length = (List.replicate 600000 'A').length from rfl,
    List.length_replicate]

theorem c8_len3 : c8_item3.tx_seq.length = 1 := rfl

/-- C8: group_transcripts with num_bases 1000000 and max_seqs 1000 on
sequences of sizes 600000, 600000 and 1 yields exactly the bins
[[600000], [600000, 1]]: the bin is yielded before the item whose
accumulation reaches the threshold is placed, and that item starts the
next bin. -/
theorem c8_group_transcripts :
    group_transcripts [c8_item1, c8_item2, c8_item3] 1000000 1000 =
      [[c8_item1], [c8_item2, c8_item3]] := by
  refine group_transcripts_three _ _ _ _ _ ?_ ?_
  · rw [c8_len1, c8_len2]; norm_num
  · rw [c8_len2, c8_len3]; norm_num
theorem abs_sub_eval (a b : Int) : |a - b| = if b ≤ a then a - b else b - a := by
  split
  · exact abs_of_nonneg (by omega)
  · rw [abs_of_nonpos (by omega)]; ring

theorem bisect_left_cons (x : Int) (t : List Int) (q : Int) :
    bisect_left (x :: t) q = if x < q then bisect_left t q + 1 else 0 := by
  unfold bisect_left
  by_cases h : x < q
  · simp [List.takeWhile_cons, h]
  · simp [List.takeWhile_cons, h]

theorem bisect_left_le_length (l : List Int) (q : Int) : bisect_left l q ≤ l.length := by
  induction l with
  | nil => simp [bisect_left]
  | cons x t ih =>
    rw [bisect_left_cons]
    split <;> simp <;> omega

theorem bisect_left_lt (l : List Int) (q : Int) :
    ∀ i v, l[i]? = some v → i < bisect_left l q → v < q := by
  induction l with
  | nil => intro i v hv; simp at hv
  | cons x t ih =>
    intro i v hv hpos
    rw [bisect_left_cons] at hpos
    by_cases hx : x < q
    · rw [if_pos hx] at hpos
      match i with
      | 0 => simp at hv; omega
      | Nat.succ j =>
        rw [List.getElem?_cons_succ] at hv
        exact ih j v hv (by omega)
    · rw [if_neg hx] at hpos; omega

theorem bisect_left_ge (l : List Int) (q : Int) :
    ∀ v, l[bisect_left l q]? = some v → q ≤ v := by
  induction l with
  | nil => intro v hv; simp at hv
  | cons x t ih =>
    intro v hv
    rw [bisect_left_cons] at hv
    by_cases hx : x < q
    · rw [if_pos hx, List.getElem?_cons_succ] at hv
      exact ih v hv
    · rw [if_neg hx] at hv
      simp at hv
      omega

theorem sorted_le_of_getElem (l : List Int) (hs : l.Sorted (· ≤ ·)) (i j : Nat)
    (u v : Int) (hu : l[i]? = some u) (hv : l[j]? = some v) (hij : i ≤ j) : u ≤ v := by
  have hjl : j < l.length := by
    by_contra hc
    rw [List.getElem?_eq_none (by omega)] at hv
    exact Option.noConfusion hv
  have hil : i < l.length := by omega
  have hu' : l[i] = u := by
    rw [List.getElem?_eq_getElem hil] at hu
    simpa using hu
  have hv' : l[j] = v := by
    rw [List.getElem?_eq_getElem hjl] at hv
    simpa using hv
  rcases Nat.eq_or_lt_of_le hij with rfl | h
  · omega
  · have := hs.rel_get_of_lt (a := ⟨i, hil⟩) (b := ⟨j, hjl⟩) h
    simp only [List.get_eq_getElem] at this
    omega

theorem mem_split_around (s : List Int) (q : Int) (hs : s.Sorted (· ≤ ·))
    (pos : Nat) (hpos : pos = bisect_left s q) (b a : Int)
    (hb : s[pos - 1]? = some b) (ha : s[pos]? = some a) (h0 : pos ≠ 0) :
    ∀ y ∈ s, y ≤ b ∨ a ≤ y := by
  intro y hy
  obtain ⟨iy, hiy, hyv⟩ := List.mem_iff_getElem.mp hy
  have hy? : s[iy]? = some y := by rw [List.getElem?_eq_getElem hiy]; simpa using hyv
  by_cases hcase : iy < pos
  · exact Or.inl (sorted_le_of_getElem s hs iy (pos - 1) y b hy? hb (by omega))
  · exact Or.inr (sorted_le_of_getElem s hs pos iy a y ha hy? (by omega))

theorem closest_in_sorted_spec (s : List Int) (q : Int)
    (hs : s.Sorted (· ≤ ·)) (hne : s ≠ []) :
    ∃ m, closest_in_sorted s q = Except.ok m ∧ m ∈ s ∧
      (∀ x ∈ s, |m - q| ≤ |x - q|) ∧ (∀ x ∈ s, |x - q| = |m - q| → m ≤ x) := by
  by_cases h0 : bisect_left s q = 0
  · match s, hne with
    | x :: t, hne =>
      have hx? : (x :: t)[bisect_left (x :: t) q]? = some x := by rw [h0]; simp
      have hq : q ≤ x := bisect_left_ge _ q x hx?
      have hhead : ∀ y ∈ x :: t, x ≤ y := by
        intro y hy
        rcases List.mem_cons.mp hy with rfl | h
        · exact le_refl _
        · exact List.rel_of_sorted_cons hs y h
      refine ⟨x, ?_, List.mem_cons_self x t, ?_, ?_⟩
      · simp only [closest_in_sorted]
        rw [if_pos h0]
      · intro y hy
        have := hhead y hy
        rw [abs_sub_eval, abs_sub_eval]
        split_ifs <;> omega
      · intro y hy _
        exact hhead y hy
  · by_cases hl : bisect_left s q = s.length
    · have hlast : s.getLast? = some (s.getLast hne) := List.getLast?_eq_getLast s hne
      have hlen : 0 < s.length := List.length_pos.mpr hne
      have hlast? : s[s.length - 1]? = some (s.getLast hne) := by
        rw [List.getLast_eq_getElem]
        exact List.getElem?_eq_getElem (by omega)
      have hallb : ∀ y ∈ s, y < q := by
        intro y hy
        obtain ⟨iy, hiy, hyv⟩ := List.mem_iff_getElem.mp hy
        have hy? : s[iy]? = some y := by
          rw [List.getElem?_eq_getElem hiy]; simpa using hyv
        exact bisect_left_lt s q iy y hy? (by omega)
      have halle : ∀ y ∈ s, y ≤ s.getLast hne := by
        intro y hy
        obtain ⟨iy, hiy, hyv⟩ := List.mem_iff_getElem.mp hy
        have hy? : s[iy]? = some y := by
          rw [List.getElem?_eq_getElem hiy]; simpa using hyv
        exact sorted_le_of_getElem s hs iy (s.length - 1) y _ hy? hlast? (by omega)
      have hmq : s.getLast hne < q := hallb _ (List.getLast_mem hne)
      refine ⟨s.getLast hne, ?_, List.getLast_mem hne, ?_, ?_⟩
      · simp only [closest_in_sorted]
        rw [if_neg h0, if_pos hl, hlast]
      · intro y hy
        have h1 := hallb y hy
        have h2 := halle y hy
        rw [abs_sub_eval, abs_sub_eval]
        split_ifs <;> omega
      · intro y hy htie
        have h1 := hallb y hy
        have h2 := halle y hy
        rw [abs_sub_eval, abs_sub_eval] at htie
        split_ifs at htie <;> omega
    · have hle := bisect_left_le_length s q
      have h1 : bisect_left s q - 1 < s.length := by omega
      have h2 : bisect_left s q < s.length := by omega
      obtain ⟨b, hb⟩ : ∃ v, s[bisect_left s q - 1]? = some v :=
        ⟨_, List.getElem?_eq_getElem h1⟩
      obtain ⟨a, ha⟩ : ∃ v, s[bisect_left s q]? = some v :=
        ⟨_, List.getElem?_eq_getElem h2⟩
      have hbq : b < q := bisect_left_lt s q _ b hb (by omega)
      have hqa : q ≤ a := bisect_left_ge s q a ha
      have hsplit := mem_split_around s q hs (bisect_left s q) rfl b a hb ha h0
      have hbmem : b ∈ s := by
        rw [List.getElem?_eq_getElem h1] at hb
        exact (Option.some.inj hb) ▸ List.getElem_mem h1
      have hamem : a ∈ s := by
        rw [List.getElem?_eq_getElem h2] at ha
        exact (Option.some.inj ha) ▸ List.getElem_mem h2
      by_cases hcmp : a - q < q - b
      · refine ⟨a, ?_, hamem, ?_, ?_⟩
        · simp only [closest_in_sorted]
          rw [if_neg h0, if_neg hl, hb, ha]
          simp only [if_pos hcmp]
        · intro y hy
          rcases hsplit y hy with hyb | hya
          · rw [abs_sub_eval, abs_sub_eval]
            split_ifs <;> omega
          · rw [abs_sub_eval, abs_sub_eval]
            split_ifs <;> omega
        · intro y hy htie
          rcases hsplit y hy with hyb | hya
          · rw [abs_sub_eval, abs_sub_eval] at htie
            split_ifs at htie <;> omega
          · omega
      · refine ⟨b, ?_, hbmem, ?_, ?_⟩
        · simp only [closest_in_sorted]
          rw [if_neg h0, if_neg hl, hb, ha]
          simp only [if_neg hcmp]
        · intro y hy
          rcases hsplit y hy with hyb | hya
          · rw [abs_sub_eval, abs_sub_eval]
            split_ifs <;> omega
          · rw [abs_sub_eval, abs_sub_eval]
            split_ifs <;> omega
        · intro y hy htie
          rcases hsplit y hy with hyb | hya
          · rw [abs_sub_eval, abs_sub_eval] at htie
            split_ifs at htie <;> omega
          · omega

/-!  Claim C10  -/

/-- C10: mathOps.find_closest returns, for every non-empty integer list, an
element of the list at minimal absolute distance from the query with ties
resolved to the smaller element; on the empty list it fails with an
out-of-range index; consequently calculate_num_missing_introns fails with
an IndexError on a target transcript that has an intron while none of its
intron coordinates map through the alignment. -/
theorem c10_find_closest (l : List Int) (q : Int) :
    (l ≠ [] → ∃ m, find_closest l q = Except.ok m ∧ m ∈ l ∧
      (∀ x ∈ l, |m - q| ≤ |x - q|) ∧ (∀ x ∈ l, |x - q| = |m - q| → m ≤ x)) ∧
    find_closest [] q = Except.error "IndexError: list index out of range" ∧
    c10_tx.intron_intervals ≠ [] ∧
    ((get_intron_coordinates c10_tx "mRNA").all
      (fun i => (c10_psl.query_coordinate_to_target i).isNone)) = true ∧
    calculate_num_missing_introns c10_ref c10_tx c10_psl "mRNA" 7 =
      Except.error "IndexError: list index out of range" := by
  refine ⟨?_, rfl, by decide, by decide, by rfl⟩
  intro hne
  have hsort : (l.insertionSort (· ≤ ·)).Sorted (· ≤ ·) :=
    List.sorted_insertionSort _ l
  have hne' : l.insertionSort (· ≤ ·) ≠ [] := by
    intro hcon
    have hlen : l.length = 0 := by
      have := (List.perm_insertionSort (· ≤ ·) l).length_eq
      rw [hcon] at this
      simpa using this.symm
    exact hne (List.length_eq_zero.mp hlen)
  obtain ⟨m, hrun, hmem, hmin, htie⟩ := closest_in_sorted_spec _ q hsort hne'
  refine ⟨m, hrun, (List.mem_insertionSort _).mp hmem, ?_, ?_⟩
  · intro x hx
    exact hmin x ((List.mem_insertionSort _).mpr hx)
  · intro x hx
    exact htie x ((List.mem_insertionSort _).mpr hx)

/-- C10 witness: the main theorem applied to the list [3, 10] and query 4,
whose closest member is 3. -/
theorem c10_witness :
    ∃ m, find_closest [3, 10] 4 = Except.ok m ∧ m ∈ ([3, 10] : List Int) ∧
      (∀ x ∈ ([3, 10] : List Int), |m - 4| ≤ |x - 4|) ∧
      (∀ x ∈ ([3, 10] : List Int), |x - 4| = |m - 4| → m ≤ x) :=
  (c10_find_closest [3, 10] 4).1 (by decide)

/-!  Claim C2  -/

theorem run_chunk_eq_flatMap {β : Type} (f : TxTuple → Except String (List β))
    (l : List TxTuple) (h : ∀ t ∈ l, ∃ v, f t = Except.ok v) :
    run_chunk f l = Except.ok (l.flatMap (rows_of f)) := by
  induction l with
  | nil => rfl
  | cons t rest ih =>
    obtain ⟨v, hv⟩ := h t (List.mem_cons_self t rest)
    have ih' := ih (fun u hu => h u (List.mem_cons_of_mem t hu))
    rw [run_chunk, hv, ih']
    simp [List.flatMap_cons, rows_of, hv, Except.toOption]

theorem run_chunk_ok_mem {β : Type} (f : TxTuple → Except String (List β))
    (l : List TxTuple) (res : List β) (h : run_chunk f l = Except.ok res) :
    ∀ t ∈ l, ∃ v, f t = Except.ok v := by
  induction l generalizing res with
  | nil => simp
  | cons t rest ih =>
    intro u hu
    cases hft : f t with
    | error e => rw [run_chunk, hft] at h; simp at h
    | ok v =>
      cases hrest : run_chunk f rest with
      | error e => rw [run_chunk, hft, hrest] at h; simp at h
      | ok r =>
        rcases List.mem_cons.mp hu with rfl | hmem
        · exact ⟨v, hft⟩
        · exact ih r hrest u hmem

theorem mapM_run_chunk {β : Type} (f : TxTuple → Except String (List β))
    (chunks : List (List TxTuple))
    (h : ∀ c ∈ chunks, ∀ t ∈ c, ∃ v, f t = Except.ok v) :
    chunks.mapM (run_chunk f) =
      Except.ok (chunks.map (fun c => c.flatMap (rows_of f))) := by
  induction chunks with
  | nil => rfl
  | cons c rest ih =>
    rw [List.mapM_cons, run_chunk_eq_flatMap f c (h c (List.mem_cons_self c rest)),
      ih (fun d hd => h d (List.mem_cons_of_mem c hd))]
    rfl

theorem flatten_map_flatMap {α β : Type} (chunks : List (List α)) (g : α → List β) :
    (chunks.map (fun c => c.flatMap g)).flatten = chunks.flatten.flatMap g := by
  induction chunks with
  | nil => rfl
  | cons c rest ih => simp [ih]

theorem insertionSort_eq_of_perm {α : Type} (r : α → α → Prop) [DecidableRel r]
    [IsTotal α r] [IsTrans α r] [IsAntisymm α r] {l₁ l₂ : List α}
    (h : l₁.Perm l₂) : l₁.insertionSort r = l₂.insertionSort r :=
  List.eq_of_perm_of_sorted
    ((List.perm_insertionSort r l₁).trans (h.trans (List.perm_insertionSort r l₂).symm))
    (List.sorted_insertionSort r l₁) (List.sorted_insertionSort r l₂)

theorem cval_key_inj (a b : CVal) (h : cval_key a = cval_key b) : a = b := by
  cases a <;> cases b <;> simp [cval_key, toLex_inj] at h <;> simp [h]

theorem mrow_key_inj (a b : MRow) (h : mrow_key a = mrow_key b) : a = b := by
  cases a with
  | mk t1 c1 v1 =>
    cases b with
    | mk t2 c2 v2 =>
      simp [mrow_key, toLex_inj] at h
      obtain ⟨h1, h2, h3⟩ := h
      simp [h1, h2, cval_key_inj v1 v2 h3]

theorem erow_key_inj (a b : ERow) (h : erow_key a = erow_key b) : a = b := by
  cases a with
  | mk a1 a2 a3 a4 a5 a6 =>
    cases b with
    | mk b1 b2 b3 b4 b5 b6 =>
      simp [erow_key, toLex_inj] at h
      obtain ⟨h1, h2, h3, h4, h5, h6⟩ := h
      simp [h1, h2, h3, h4, h5, h6]

/-- C2: for every input set of work tuples and every partition of it into
chunks, in any order, running the metric and evaluation classifiers per
chunk succeeds whenever the single-chunk run succeeds, and merge_results
applied to the concatenated per-chunk record lists yields exactly the same
sorted table as merge_results applied to the single-chunk run. -/
theorem c2_chunked_merge (chunks : List (List TxTuple)) (input : List TxTuple)
    (hperm : chunks.flatten.Perm input) (mres : List MRow) (eres : List ERow)
    (hm : calculate_metrics input = Except.ok mres)
    (he : calculate_evaluations input = Except.ok eres) :
    chunks.mapM calculate_metrics =
      Except.ok (chunks.map (fun c => c.flatMap (rows_of metric_rows))) ∧
    chunks.mapM calculate_evaluations =
      Except.ok (chunks.map (fun c => c.flatMap (rows_of eval_rows))) ∧
    merge_results mrow_le (chunks.map (fun c => c.flatMap (rows_of metric_rows)))
      = merge_results mrow_le [mres] ∧
    merge_results erow_le (chunks.map (fun c => c.flatMap (rows_of eval_rows)))
      = merge_results erow_le [eres] := by
  haveI : IsTotal MRow mrow_le := ⟨fun a b => le_total (mrow_key a) (mrow_key b)⟩
  haveI : IsTrans MRow mrow_le := ⟨fun a b c h1 h2 => le_trans h1 h2⟩
  haveI : IsAntisymm MRow mrow_le :=
    ⟨fun a b h1 h2 => mrow_key_inj a b (le_antisymm h1 h2)⟩
  haveI : IsTotal ERow erow_le := ⟨fun a b => le_total (erow_key a) (erow_key b)⟩
  haveI : IsTrans ERow erow_le := ⟨fun a b c h1 h2 => le_trans h1 h2⟩
  haveI : IsAntisymm ERow erow_le :=
    ⟨fun a b h1 h2 => erow_key_inj a b (le_antisymm h1 h2)⟩
  have hm' : run_chunk metric_rows input = Except.ok mres := hm
  have he' : run_chunk eval_rows input = Except.ok eres := he
  have hmok : ∀ t ∈ input, ∃ v, metric_rows t = Except.ok v :=
    run_chunk_ok_mem metric_rows input mres hm'
  have heok : ∀ t ∈ input, ∃ v, eval_rows t = Except.ok v :=
    run_chunk_ok_mem eval_rows input eres he'
  have hchm : ∀ c ∈ chunks, ∀ t ∈ c, ∃ v, metric_rows t = Except.ok v := by
    intro c hc t ht
    exact hmok t (hperm.mem_iff.mp (List.mem_flatten.mpr ⟨c, hc, ht⟩))
  have hche : ∀ c ∈ chunks, ∀ t ∈ c, ∃ v, eval_rows t = Except.ok v := by
    intro c hc t ht
    exact heok t (hperm.mem_iff.mp (List.mem_flatten.mpr ⟨c, hc, ht⟩))
  have hmres : mres = input.flatMap (rows_of metric_rows) :=
    Except.ok.inj (hm'.symm.trans (run_chunk_eq_flatMap metric_rows input hmok))
  have heres : eres = input.flatMap (rows_of eval_rows) :=
    Except.ok.inj (he'.symm.trans (run_chunk_eq_flatMap eval_rows input heok))
  refine ⟨mapM_run_chunk metric_rows chunks hchm,
    mapM_run_chunk eval_rows chunks hche, ?_, ?_⟩
  · unfold merge_results
    rw [show ([mres] : List (List MRow)).flatten = mres by simp]
    refine insertionSort_eq_of_perm mrow_le ?_
    rw [flatten_map_flatMap, hmres]
    exact hperm.flatMap_right (rows_of metric_rows)
  · unfold merge_results
    rw [show ([eres] : List (List ERow)).flatten = eres by simp]
    refine insertionSort_eq_of_perm erow_le ?_
    rw [flatten_map_flatMap, heres]
    exact hperm.flatMap_right (rows_of eval_rows)

theorem c2_ratio_false : ratio_ge_cutoff 0 5 = false := by
  simp only [ratio_ge_cutoff, decide_eq_false_iff_not]
  rintro ⟨-, h2⟩
  norm_num at h2

theorem c2_missing_exons :
    calculate_num_missing_exons c2_tx c2_psl "mRNA" = Except.ok 0 := by
  have hge : get_exon_intervals c2_tx "mRNA" =
      Except.ok [(⟨"chr1", 0, 5, "+"⟩, ⟨"", 0, 5, "."⟩)] := rfl
  unfold calculate_num_missing_exons
  rw [hge]
  show Except.ok _ = Except.ok 0
  norm_num [List.countP_cons,
    show count_unmapped c2_psl 0 5 = 0 from rfl, c2_ratio_false]

theorem c2_exon_gain : exon_gain c2_tx c2_psl "mRNA" = Except.ok [] := by
  have hge : get_exon_intervals c2_tx "mRNA" =
      Except.ok [(⟨"chr1", 0, 5, "+"⟩, ⟨"", 0, 5, "."⟩)] := rfl
  unfold exon_gain
  rw [hge]
  show Except.ok _ = Except.ok []
  norm_num [List.filter_cons,
    show count_unmapped c2_psl 0 5 = 0 from rfl, c2_ratio_false]

theorem c2_coverage : c2_psl.coverage = 1 := by
  norm_num [PslRow.coverage, PslRow.block_sizes, c2_psl]

theorem c2_identity : c2_psl.identity = 1 := by
  norm_num [PslRow.identity, c2_psl]

theorem c2_badness : c2_psl.badness = 0 := by
  norm_num [PslRow.badness, PslRow.block_sizes, c2_psl]

theorem c2_percent_n : c2_psl.percent_n = 0 := by
  norm_num [PslRow.percent_n, c2_psl]

theorem c2_metric_rows_eval : metric_rows c2_tuple = Except.ok c2_mrows := by
  unfold metric_rows
  rw [show c2_tuple.ref_tx = c2_tx from rfl, show c2_tuple.tx = c2_tx from rfl,
    show c2_tuple.psl = c2_psl from rfl, show c2_tuple.aln_mode = "mRNA" from rfl,
    show c2_tuple.biotype = "noncoding" from rfl,
    show calculate_num_missing_introns c2_tx c2_tx c2_psl "mRNA" 7 = Except.ok 0 from rfl,
    c2_missing_exons]
  show Except.ok _ = Except.ok c2_mrows
  rw [c2_coverage, c2_identity, c2_badness, c2_percent_n]
  rfl

theorem c2_eval_rows_eval : eval_rows c2_tuple = Except.ok [] := by
  unfold eval_rows
  rw [show c2_tuple.tx = c2_tx from rfl, show c2_tuple.psl = c2_psl from rfl,
    show c2_tuple.aln_mode = "mRNA" from rfl,
    show c2_tuple.biotype = "noncoding" from rfl,
    c2_exon_gain,
    show find_indels c2_tx c2_psl "mRNA" = Except.ok [] from rfl]
  rfl

theorem c2_calculate_metrics_eval :
    calculate_metrics [c2_tuple] = Except.ok c2_mrows := by
  unfold calculate_metrics run_chunk
  rw [c2_metric_rows_eval]
  rfl

theorem c2_calculate_evaluations_eval :
    calculate_evaluations [c2_tuple] = Except.ok ([] : List ERow) := by
  unfold calculate_evaluations run_chunk
  rw [c2_eval_rows_eval]
  rfl

/-- C2 witness: the chunking theorem applied to one chunk holding one work
item, with the concretely computed row lists. -/
theorem c2_witness :
    [[c2_tuple]].mapM calculate_metrics =
      Except.ok ([[c2_tuple]].map (fun c => c.flatMap (rows_of metric_rows))) ∧
    [[c2_tuple]].mapM calculate_evaluations =
      Except.ok ([[c2_tuple]].map (fun c => c.flatMap (rows_of eval_rows))) ∧
    merge_results mrow_le ([[c2_tuple]].map (fun c => c.flatMap (rows_of metric_rows)))
      = merge_results mrow_le [c2_mrows] ∧
    merge_results erow_le ([[c2_tuple]].map (fun c => c.flatMap (rows_of eval_rows)))
      = merge_results erow_le [([] : List ERow)] :=
  c2_chunked_merge [[c2_tuple]] [c2_tuple] (List.Perm.refl _) c2_mrows []
    c2_calculate_metrics_eval c2_calculate_evaluations_eval
